import Mathlib

/-! USB mass-storage driver: wire structures, states and events.

A shallow embedding of `usb_msd.h` and of the start-up sequence of `main.c`
(RT-STM32F407-WAVESHARE-FATFS-USB).  Machine integers are natural numbers,
reduced modulo `2 ^ 8` or `2 ^ 32` where they are stored; a byte buffer is a
list of naturals.
-/

namespace UsbMsd

/-! ## C object representation -/

/-- The member types occurring in the structures of `usb_msd.h`. -/
inductive CType where
  | uint8_t : CType
  | uint32_t : CType
  | pointer : CType
  | array : CType → Nat → CType
  deriving DecidableEq, Repr

/-- The size in bytes of a value of a member type (pointers are 32 bits wide
on the STM32F407). -/
def CType.sizeof : CType → Nat
  | .uint8_t => 1
  | .uint32_t => 4
  | .pointer => 4
  | .array t n => n * t.sizeof

/-- One member of a structure declaration: identifier and type. -/
structure Member where
  name : String
  type : CType
  deriving DecidableEq, Repr

/-- The size of a structure declared with `PACK_STRUCT_STRUCT`, that is
`__attribute__((packed))`: the members follow each other without padding. -/
def packed_sizeof (ms : List Member) : Nat :=
  (ms.map fun m => m.type.sizeof).sum

/-- The byte offset of a member of a packed structure: the sizes of the
members declared before it. -/
def packed_offsetof : List Member → String → Option Nat
  | [], _ => none
  | m :: ms, n =>
    if m.name = n then some 0
    else (packed_offsetof ms n).map fun o => m.type.sizeof + o

/-- The size of a member of a structure, by identifier. -/
def member_sizeof (ms : List Member) (n : String) : Option Nat :=
  (ms.find? fun m => m.name = n).map fun m => m.type.sizeof

/-- The object representation of a `uint8_t`. -/
def u8 (v : Nat) : List Nat := [v % 256]

/-- The little-endian object representation of a `uint32_t`. -/
def u32 (v : Nat) : List Nat :=
  [v % 256, v / 256 % 256, v / 65536 % 256, v / 16777216 % 256]

/-- The object representation of a `uint8_t[n]`. -/
def u8s {n : Nat} (a : Fin n → Nat) : List Nat :=
  List.ofFn fun i => a i % 256

/-- The unsigned value of a little-endian byte sequence. -/
def le_value : List Nat → Nat
  | [] => 0
  | b :: bs => b % 256 + 256 * le_value bs

/-- The `n` bytes of a buffer starting at offset `off`. -/
def bytes_at (buf : List Nat) (off n : Nat) : List Nat :=
  (buf.drop off).take n

/-! ## Structures of `usb_msd.h` -/

/-- Command Block Wrapper structure. -/
structure msd_cbw_t where
  signature : Nat
  tag : Nat
  data_len : Nat
  flags : Nat
  lun : Nat
  scsi_cmd_len : Nat
  scsi_cmd_data : Fin 16 → Nat

/-- The member declarations of `msd_cbw_t`, in order. -/
def msd_cbw_t.members : List Member :=
  [⟨"signature", .uint32_t⟩, ⟨"tag", .uint32_t⟩, ⟨"data_len", .uint32_t⟩,
   ⟨"flags", .uint8_t⟩, ⟨"lun", .uint8_t⟩, ⟨"scsi_cmd_len", .uint8_t⟩,
   ⟨"scsi_cmd_data", .array .uint8_t 16⟩]

/-- The bytes a `msd_cbw_t` object occupies. -/
def msd_cbw_t.bytes (c : msd_cbw_t) : List Nat :=
  u32 c.signature ++ u32 c.tag ++ u32 c.data_len ++ u8 c.flags ++ u8 c.lun
    ++ u8 c.scsi_cmd_len ++ u8s c.scsi_cmd_data

/-- Command Status Wrapper structure. -/
structure msd_csw_t where
  signature : Nat
  tag : Nat
  data_residue : Nat
  status : Nat
  deriving DecidableEq, Repr

/-- The member declarations of `msd_csw_t`, in order. -/
def msd_csw_t.members : List Member :=
  [⟨"signature", .uint32_t⟩, ⟨"tag", .uint32_t⟩, ⟨"data_residue", .uint32_t⟩,
   ⟨"status", .uint8_t⟩]

/-- The bytes a `msd_csw_t` object occupies. -/
def msd_csw_t.bytes (c : msd_csw_t) : List Nat :=
  u32 c.signature ++ u32 c.tag ++ u32 c.data_residue ++ u8 c.status

/-- Structure holding sense data (status/error information). -/
structure msd_scsi_sense_response_t where
  byte : Fin 18 → Nat

/-- The member declarations of `msd_scsi_sense_response_t`. -/
def msd_scsi_sense_response_t.members : List Member :=
  [⟨"byte", .array .uint8_t 18⟩]

/-- The bytes a `msd_scsi_sense_response_t` object occupies. -/
def msd_scsi_sense_response_t.bytes (s : msd_scsi_sense_response_t) : List Nat :=
  u8s s.byte

/-- Structure holding the data to reply to an INQUIRY SCSI command. -/
structure msd_scsi_inquiry_response_t where
  peripheral : Nat
  removable : Nat
  version : Nat
  response_data_format : Nat
  additional_length : Nat
  sccstp : Nat
  bqueetc : Nat
  cmdque : Nat
  vendor_id : Fin 8 → Nat
  product_id : Fin 16 → Nat
  product_rev : Fin 4 → Nat

/-- The member declarations of `msd_scsi_inquiry_response_t`, in order. -/
def msd_scsi_inquiry_response_t.members : List Member :=
  [⟨"peripheral", .uint8_t⟩, ⟨"removable", .uint8_t⟩, ⟨"version", .uint8_t⟩,
   ⟨"response_data_format", .uint8_t⟩, ⟨"additional_length", .uint8_t⟩,
   ⟨"sccstp", .uint8_t⟩, ⟨"bqueetc", .uint8_t⟩, ⟨"cmdque", .uint8_t⟩,
   ⟨"vendor_id", .array .uint8_t 8⟩, ⟨"product_id", .array .uint8_t 16⟩,
   ⟨"product_rev", .array .uint8_t 4⟩]

/-- The bytes a `msd_scsi_inquiry_response_t` object occupies. -/
def msd_scsi_inquiry_response_t.bytes (r : msd_scsi_inquiry_response_t) : List Nat :=
  u8 r.peripheral ++ u8 r.removable ++ u8 r.version ++ u8 r.response_data_format
    ++ u8 r.additional_length ++ u8 r.sccstp ++ u8 r.bqueetc ++ u8 r.cmdque
    ++ u8s r.vendor_id ++ u8s r.product_id ++ u8s r.product_rev

/-- Possible states for the USB mass storage driver. -/
inductive msd_state_t where
  | MSD_IDLE
  | MSD_READ_COMMAND_BLOCK
  | MSD_EJECTED
  | MSD_BOT_RESET
  deriving DecidableEq, Repr

/-- The integer value of an enumerator: the declaration gives none
explicitly, so they count up from 0 in declaration order. -/
def msd_state_t.value : msd_state_t → Nat
  | .MSD_IDLE => 0
  | .MSD_READ_COMMAND_BLOCK => 1
  | .MSD_EJECTED => 2
  | .MSD_BOT_RESET => 3

/-- The enumerator an integer stored in a `msd_state_t` object stands for. -/
def msd_state_t.of_value : Nat → Option msd_state_t
  | 0 => some .MSD_IDLE
  | 1 => some .MSD_READ_COMMAND_BLOCK
  | 2 => some .MSD_EJECTED
  | 3 => some .MSD_BOT_RESET
  | _ => none

/-- The enumerators of `msd_state_t`, in declaration order. -/
def msd_state_t.enumerators : List msd_state_t :=
  [.MSD_IDLE, .MSD_READ_COMMAND_BLOCK, .MSD_EJECTED, .MSD_BOT_RESET]

/-- The states of the transport engine as the specification names them. -/
inductive SpecState where
  | Idle
  | ReadingCommandBlock
  | Ejected
  | BotReset
  deriving DecidableEq, Repr

/-- The specification's name for each enumerator. -/
def msd_state_t.spec_state : msd_state_t → SpecState
  | .MSD_IDLE => .Idle
  | .MSD_READ_COMMAND_BLOCK => .ReadingCommandBlock
  | .MSD_EJECTED => .Ejected
  | .MSD_BOT_RESET => .BotReset

/-- The enumerator for each state the specification names. -/
def SpecState.enumerator : SpecState → msd_state_t
  | .Idle => .MSD_IDLE
  | .ReadingCommandBlock => .MSD_READ_COMMAND_BLOCK
  | .Ejected => .MSD_EJECTED
  | .BotReset => .MSD_BOT_RESET

/-! ## Event constants of `usb_msd.h` -/

/-- The `EVT_*` constants. -/
inductive Evt where
  | EVT_USB_RESET
  | EVT_BOT_RESET
  | EVT_SEM_TAKEN
  | EVT_SEM_RELEASED
  | EVT_USB_CONFIGURED
  | EVT_SCSI_REQ_TEST_UNIT_READY
  | EVT_SCSI_REQ_READ_FMT_CAP
  | EVT_SCSI_REQ_SENSE6
  | EVT_SCSI_REQ_SENSE10
  | EVT_WAIT_FOR_COMMAND_BLOCK
  | EVT_SCSI_REQ_SEND_DIAGNOSTIC
  | EVT_SCSI_REQ_READ_CAP10
  | EVT_SCSI_PROC_INQ
  deriving DecidableEq, Repr

/-- The shift amount in the definition `(1 << k)` of a constant. -/
def Evt.shift : Evt → Nat
  | .EVT_USB_RESET => 0
  | .EVT_BOT_RESET => 1
  | .EVT_SEM_TAKEN => 2
  | .EVT_SEM_RELEASED => 3
  | .EVT_USB_CONFIGURED => 4
  | .EVT_SCSI_REQ_TEST_UNIT_READY => 5
  | .EVT_SCSI_REQ_READ_FMT_CAP => 6
  | .EVT_SCSI_REQ_SENSE6 => 7
  | .EVT_SCSI_REQ_SENSE10 => 8
  | .EVT_WAIT_FOR_COMMAND_BLOCK => 9
  | .EVT_SCSI_REQ_SEND_DIAGNOSTIC => 10
  | .EVT_SCSI_REQ_READ_CAP10 => 11
  | .EVT_SCSI_PROC_INQ => 12

/-- The value of a constant, `(1 << k)`. -/
def Evt.mask (e : Evt) : Nat := 1 <<< e.shift

/-- The thirteen constants, in the order of their definitions. -/
def Evt.all : List Evt :=
  [.EVT_USB_RESET, .EVT_BOT_RESET, .EVT_SEM_TAKEN, .EVT_SEM_RELEASED,
   .EVT_USB_CONFIGURED, .EVT_SCSI_REQ_TEST_UNIT_READY,
   .EVT_SCSI_REQ_READ_FMT_CAP, .EVT_SCSI_REQ_SENSE6, .EVT_SCSI_REQ_SENSE10,
   .EVT_WAIT_FOR_COMMAND_BLOCK, .EVT_SCSI_REQ_SEND_DIAGNOSTIC,
   .EVT_SCSI_REQ_READ_CAP10, .EVT_SCSI_PROC_INQ]

/-- The flags word holding a collection of pending events: the OR of their
masks. -/
def pending_flags (es : List Evt) : Nat :=
  es.foldl (fun acc e => acc ||| e.mask) 0

/-- Whether an event's bit is set in a flags word. -/
def is_pending (flags : Nat) (e : Evt) : Bool :=
  flags &&& e.mask != 0

/-- The occurrences the specification's event set carries. -/
inductive Occurrence where
  | usb_reset
  | bot_reset_requested
  | configuration_complete
  | data_ready
  | eject_requested
  | media_reinserted
  deriving DecidableEq, Repr

/-- The occurrence of the specification's list that a constant is named
for, if any.  `EVT_SEM_TAKEN` and `EVT_SEM_RELEASED` are named for the
semaphore, the `EVT_SCSI_*` constants for SCSI requests, and
`EVT_WAIT_FOR_COMMAND_BLOCK` for the wait for the next command block: none
of them is named for an occurrence of the list. -/
def Evt.occurrence : Evt → Option Occurrence
  | .EVT_USB_RESET => some .usb_reset
  | .EVT_BOT_RESET => some .bot_reset_requested
  | .EVT_USB_CONFIGURED => some .configuration_complete
  | .EVT_SEM_TAKEN => none
  | .EVT_SEM_RELEASED => none
  | .EVT_SCSI_REQ_TEST_UNIT_READY => none
  | .EVT_SCSI_REQ_READ_FMT_CAP => none
  | .EVT_SCSI_REQ_SENSE6 => none
  | .EVT_SCSI_REQ_SENSE10 => none
  | .EVT_WAIT_FOR_COMMAND_BLOCK => none
  | .EVT_SCSI_REQ_SEND_DIAGNOSTIC => none
  | .EVT_SCSI_REQ_READ_CAP10 => none
  | .EVT_SCSI_PROC_INQ => none

/-- The constants named for an occurrence. -/
def Occurrence.constants (o : Occurrence) : List Evt :=
  Evt.all.filter fun e => e.occurrence = some o

/-- Driver configuration structure.  The three pointers are kept as
addresses, a null callback as `none`. -/
structure USBMassStorageConfig where
  usbp : Nat
  bbdp : Nat
  bulk_ep : Nat
  rw_activity_callback : Option Nat
  short_vendor_id : Fin 8 → Nat
  short_product_id : Fin 16 → Nat
  short_product_version : Fin 4 → Nat

/-- The member declarations of `USBMassStorageConfig`, in order (`usbep_t`
is a `uint8_t`). -/
def USBMassStorageConfig.members : List Member :=
  [⟨"usbp", .pointer⟩, ⟨"bbdp", .pointer⟩, ⟨"bulk_ep", .uint8_t⟩,
   ⟨"rw_activity_callback", .pointer⟩,
   ⟨"short_vendor_id", .array .uint8_t 8⟩,
   ⟨"short_product_id", .array .uint8_t 16⟩,
   ⟨"short_product_version", .array .uint8_t 4⟩]

/-- The C library's `memcpy(dst, src, n)` on two byte arrays: the first `n`
bytes of `dst` become those of `src`.  A position past the end of either
array is left as it is. -/
def memcpy : List Nat → List Nat → Nat → List Nat
  | _ :: ds, b :: bs, n + 1 => b :: memcpy ds bs n
  | ds, _, _ => ds

/-! ## Start-up sequence of `main.c` -/

/-- The result of `sdcConnect`. -/
inductive hal_result where
  | HAL_SUCCESS
  | HAL_FAILED
  deriving DecidableEq, Repr

/-- The FatFs result code for success; every other `FRESULT` is an error. -/
def FR_OK : Nat := 0

/-- What `main` and the calls it makes have set up. -/
structure MainState where
  /-- the SD card is connected to the SDC driver -/
  sdc_connected : Bool
  /-- a FAT volume is mounted on `SDC_FS` -/
  fs_mounted : Bool
  /-- the static `fs_ready` -/
  fs_ready : Bool
  /-- the red LED, switched on by `RED_ON` -/
  red_on : Bool
  /-- the blinker thread exists -/
  blinker : Bool
  deriving DecidableEq, Repr

/-- The body of `main` from `sdcStart` up to the call of `init_msd_driver`,
for the result `r` of `sdcConnect` and the result `err` of the forced
`f_mount(&SDC_FS, "/", 1)`: the state in which `init_msd_driver` is called. -/
def main_at_init_msd_driver (r : hal_result) (err : Nat) : MainState :=
  let s0 : MainState :=
    { sdc_connected := false, fs_mounted := false, fs_ready := false,
      red_on := false, blinker := false }
  -- if (sdcConnect(&SDCD1) == HAL_FAILED) { RED_ON; }
  let s1 := { s0 with sdc_connected := decide (r = hal_result.HAL_SUCCESS) }
  let s2 := if r = hal_result.HAL_FAILED then { s1 with red_on := true } else s1
  -- FRESULT err = f_mount(&SDC_FS, "/", 1);
  let s3 := { s2 with fs_mounted := decide (err = FR_OK) }
  let s4 :=
    if err ≠ FR_OK then { s3 with red_on := true, fs_ready := false }
    else { s3 with fs_ready := true }
  -- chThdCreateStatic(waThread1, ...);
  { s4 with blinker := true }

/-- The requirement in the documentation of `msdStart`: "The block device
must be connected but no file system must be mounted". -/
def msdStart_requirement (s : MainState) : Bool :=
  s.sdc_connected && !s.fs_mounted

/-- USB mass storage driver structure.  The members that are objects of the
operating system (`bsem`, `thread`, `evt_connected`, `evt_ejected`) carry no
data of the protocol and are left out; `block_dev_info` is its two
numbers. -/
structure USBMassStorageDriver where
  config : USBMassStorageConfig
  blk_size : Nat
  blk_num : Nat
  state : msd_state_t
  cbw : msd_cbw_t
  csw : msd_csw_t
  sense : msd_scsi_sense_response_t
  inquiry : msd_scsi_inquiry_response_t
  reconfigured_or_reset_event : Bool
  result : Bool
  bot_reset : Bool

/-! ## Transport engine -/

/-- Modelled from the spec: the constants of the transport, which the
driver's implementation file `usb_msd.c` (not among the sources) defines:
the fixed CBW and CSW signatures of section 3 and the configured highest LUN
of section 4.3. -/
structure BotParameters where
  cbw_signature : Nat
  csw_signature : Nat
  max_lun : Nat
  deriving DecidableEq, Repr

/-- Modelled from the spec: `decode_cbw` of section 4.1, missing with
`usb_msd.c`: it fails unless the buffer is exactly 31 bytes and carries the
CBW signature, and otherwise reads the members at the offsets of
`msd_cbw_t`, little-endian. -/
def decode_cbw (p : BotParameters) (buf : List Nat) : Option msd_cbw_t :=
  if buf.length = 31 ∧ le_value (bytes_at buf 0 4) = p.cbw_signature % 2 ^ 32 then
    some
      { signature := le_value (bytes_at buf 0 4)
        tag := le_value (bytes_at buf 4 4)
        data_len := le_value (bytes_at buf 8 4)
        flags := buf.getD 12 0 % 256
        lun := buf.getD 13 0 % 256
        scsi_cmd_len := buf.getD 14 0 % 256
        scsi_cmd_data := fun i => buf.getD (15 + i.val) 0 % 256 }
  else none

/-- Modelled from the spec: the acceptance test of section 4.3 on a decoded
CBW, missing with `usb_msd.c`: `command_length` in 1..16 and `lun` within the
configured range. -/
def cbw_accepted (p : BotParameters) (c : msd_cbw_t) : Bool :=
  decide (1 ≤ c.scsi_cmd_len) && decide (c.scsi_cmd_len ≤ 16) &&
    decide (c.lun ≤ p.max_lun)

/-- Modelled from the spec: what the SCSI emulator of section 4.2, missing
with `usb_msd.c`, reports to the transport engine for a command. -/
inductive EmulatorResult where
  | success (bytes_moved : Nat)
  | command_failed (bytes_moved : Nat)
  | phase_error
  | no_media
  deriving DecidableEq, Repr

/-- Modelled from the spec: the outcome of one command cycle of the
transport engine of section 4.3, missing with `usb_msd.c`: the driver
afterwards, the CSW sent (if one is sent) and whether the bulk endpoints are
left stalled. -/
structure CycleOutcome where
  driver : USBMassStorageDriver
  sent : Option msd_csw_t
  stalled : Bool

/-- Modelled from the spec: the CSW of section 3 answering a CBW, missing
with `usb_msd.c`: the CSW signature, the tag of the CBW, the residue and the
status. -/
def make_csw (p : BotParameters) (cbw : msd_cbw_t) (status residue : Nat) :
    msd_csw_t :=
  { signature := p.csw_signature % 2 ^ 32, tag := cbw.tag,
    data_residue := residue % 2 ^ 32, status := status }

/-- Modelled from the spec: one command cycle of the transport engine of
section 4.3, missing with `usb_msd.c`.  `buf` is the envelope received,
`emu` the SCSI emulator's verdict on a command, `reset` whether the host's
Bulk-Only Mass Storage Reset arrives during the cycle.  A malformed or
rejected envelope is discarded, the endpoints stall and the engine enters
`MSD_BOT_RESET`; a reset abandons the cycle without a CSW; while ejected the
command fails without the emulator; otherwise the emulator's verdict gives
status, residue and next state. -/
def command_cycle (p : BotParameters) (d : USBMassStorageDriver)
    (buf : List Nat) (emu : msd_cbw_t → EmulatorResult) (reset : Bool) :
    CycleOutcome :=
  match decode_cbw p buf with
  | none => { driver := { d with state := .MSD_BOT_RESET }, sent := none, stalled := true }
  | some cbw =>
    if cbw_accepted p cbw then
      if reset then
        { driver := { d with cbw := cbw, state := .MSD_BOT_RESET, bot_reset := true },
          sent := none, stalled := false }
      else if d.state = .MSD_EJECTED then
        let csw := make_csw p cbw 1 cbw.data_len
        { driver := { d with cbw := cbw, csw := csw, result := false },
          sent := some csw, stalled := false }
      else
        match emu cbw with
        | .success n =>
          let csw := make_csw p cbw 0 (cbw.data_len - n)
          { driver := { d with cbw := cbw, csw := csw, state := .MSD_IDLE, result := true },
            sent := some csw, stalled := false }
        | .command_failed n =>
          let csw := make_csw p cbw 1 (cbw.data_len - n)
          { driver := { d with cbw := cbw, csw := csw, state := .MSD_IDLE, result := false },
            sent := some csw, stalled := false }
        | .phase_error =>
          let csw := make_csw p cbw 2 cbw.data_len
          { driver := { d with cbw := cbw, csw := csw, state := .MSD_IDLE, result := false },
            sent := some csw, stalled := true }
        | .no_media =>
          let csw := make_csw p cbw 1 cbw.data_len
          { driver := { d with cbw := cbw, csw := csw, state := .MSD_EJECTED, result := false },
            sent := some csw, stalled := false }
    else
      { driver := { d with state := .MSD_BOT_RESET }, sent := none, stalled := true }

/-! ## Concrete values -/

/-- An INQUIRY command block: six command bytes, 36 bytes expected from the
device. -/
def inquiry_cbw : msd_cbw_t :=
  { signature := 0x43425355, tag := 1, data_len := 36, flags := 0x80, lun := 0,
    scsi_cmd_len := 6,
    scsi_cmd_data := fun i => if i.val = 0 then 0x12 else if i.val = 4 then 36 else 0 }

/-- The signatures of the Bulk-Only Transport ("USBC", "USBS") and a single
logical unit. -/
def usb_bot : BotParameters :=
  { cbw_signature := 0x43425355, csw_signature := 0x53425355, max_lun := 0 }

/-- A driver object with every member zero. -/
def zeroed_driver : USBMassStorageDriver :=
  { config :=
      { usbp := 0, bbdp := 0, bulk_ep := 0, rw_activity_callback := none,
        short_vendor_id := fun _ => 0, short_product_id := fun _ => 0,
        short_product_version := fun _ => 0 }
    blk_size := 0
    blk_num := 0
    state := .MSD_IDLE
    cbw :=
      { signature := 0, tag := 0, data_len := 0, flags := 0, lun := 0,
        scsi_cmd_len := 0, scsi_cmd_data := fun _ => 0 }
    csw := { signature := 0, tag := 0, data_residue := 0, status := 0 }
    sense := { byte := fun _ => 0 }
    inquiry :=
      { peripheral := 0, removable := 0, version := 0, response_data_format := 0,
        additional_length := 0, sccstp := 0, bqueetc := 0, cmdque := 0,
        vendor_id := fun _ => 0, product_id := fun _ => 0,
        product_rev := fun _ => 0 }
    reconfigured_or_reset_event := false
    result := false
    bot_reset := false }

/-- The INQUIRY command block as decoded from its 31 bytes. -/
def received_inquiry_cbw : msd_cbw_t :=
  (decode_cbw usb_bot inquiry_cbw.bytes).getD inquiry_cbw

/-! ## Lemmas on object representations -/

theorem u8s_length {n : Nat} (a : Fin n → Nat) : (u8s a).length = n := by
  simp [u8s]

theorem u8s_getElem? {n : Nat} (a : Fin n → Nat) (i : Nat) (h : i < n) :
    (u8s a)[i]? = some (a ⟨i, h⟩ % 256) := by
  simp [u8s, List.getElem?_eq_getElem, h]

theorem bytes_at_append_left (xs ys : List Nat) :
    bytes_at (xs ++ ys) 0 xs.length = xs := by
  simp [bytes_at]

theorem bytes_at_append_right (xs ys : List Nat) (off n : Nat) :
    bytes_at (xs ++ ys) (xs.length + off) n = bytes_at ys off n := by
  simp [bytes_at]

theorem bytes_at_all (xs : List Nat) : bytes_at xs 0 xs.length = xs := by
  simp [bytes_at]

theorem le_value_u32 (v : Nat) : le_value (u32 v) = v % 2 ^ 32 := by
  simp only [u32, le_value]
  omega

theorem Evt.mask_eq_two_pow (e : Evt) : e.mask = 2 ^ e.shift := by
  simp [Evt.mask, Nat.one_shiftLeft]

theorem Evt.shift_injective : Function.Injective Evt.shift := by
  intro e f h
  cases e <;> cases f <;> first | rfl | (exact absurd h (by decide))

theorem Evt.shift_lt (e : Evt) : e.shift < 13 := by
  cases e <;> decide

theorem testBit_pending_flags (es : List Evt) (k : Nat) :
    (pending_flags es).testBit k = es.any fun e => decide (e.shift = k) := by
  suffices h : ∀ (acc : Nat),
      (es.foldl (fun acc e => acc ||| e.mask) acc).testBit k
        = (acc.testBit k || es.any fun e => decide (e.shift = k)) by
    simpa [pending_flags] using h 0
  induction es with
  | nil => intro acc; simp
  | cons e es ih =>
    intro acc
    rw [List.foldl_cons, ih, Nat.testBit_or, Evt.mask_eq_two_pow,
      Nat.testBit_two_pow, List.any_cons, Bool.or_assoc]

theorem and_two_pow_ne_zero (x k : Nat) : x &&& 2 ^ k ≠ 0 ↔ x.testBit k = true := by
  rw [Nat.and_two_pow]
  cases h : x.testBit k
  · simp
  · simp

theorem memcpy_whole (dst src : List Nat) (h : dst.length = src.length) :
    memcpy dst src src.length = src := by
  induction src generalizing dst with
  | nil =>
    cases dst with
    | nil => rfl
    | cons d ds => simp at h
  | cons b bs ih =>
    cases dst with
    | nil => simp at h
    | cons d ds =>
      simp only [List.length_cons, Nat.add_right_cancel_iff] at h
      simp [memcpy, ih ds h]

theorem u32_le_value (l : List Nat) (h : l.length = 4) :
    u32 (le_value l) = l.map fun b => b % 256 := by
  match l, h with
  | [a, b, c, d], _ =>
    simp only [u32, le_value, List.map_cons, List.map_nil, List.cons.injEq,
      and_true]
    omega

theorem bytes_at_length (buf : List Nat) (off n : Nat) (h : off + n ≤ buf.length) :
    (bytes_at buf off n).length = n := by
  simp [bytes_at]
  omega

/-! ## Wire layouts -/

/-- C1: a `msd_cbw_t` object occupies exactly 31 bytes, whatever its value:
the little-endian signature at bytes 0-3, tag at 4-7, data_len at 8-11, flags
at 12, lun at 13, scsi_cmd_len at 14 and the sixteen command bytes at 15-30,
as the packed declaration lays them out; and for a command length `len` in
1..16 every index `i < len` is an index of the command array, whose byte sits
at offset `15 + i` inside the 31 bytes. -/
theorem msd_cbw_t_layout (c : msd_cbw_t) (len i : Nat) (h1 : 1 ≤ len)
    (h16 : len ≤ 16) (hi : i < len) :
    c.bytes.length = 31 ∧ packed_sizeof msd_cbw_t.members = 31 ∧
    packed_offsetof msd_cbw_t.members "signature" = some 0 ∧
    packed_offsetof msd_cbw_t.members "tag" = some 4 ∧
    packed_offsetof msd_cbw_t.members "data_len" = some 8 ∧
    packed_offsetof msd_cbw_t.members "flags" = some 12 ∧
    packed_offsetof msd_cbw_t.members "lun" = some 13 ∧
    packed_offsetof msd_cbw_t.members "scsi_cmd_len" = some 14 ∧
    packed_offsetof msd_cbw_t.members "scsi_cmd_data" = some 15 ∧
    bytes_at c.bytes 0 4 = u32 c.signature ∧
    bytes_at c.bytes 4 4 = u32 c.tag ∧
    bytes_at c.bytes 8 4 = u32 c.data_len ∧
    bytes_at c.bytes 12 1 = u8 c.flags ∧
    bytes_at c.bytes 13 1 = u8 c.lun ∧
    bytes_at c.bytes 14 1 = u8 c.scsi_cmd_len ∧
    bytes_at c.bytes 15 16 = u8s c.scsi_cmd_data ∧
    le_value (bytes_at c.bytes 0 4) = c.signature % 2 ^ 32 ∧
    le_value (bytes_at c.bytes 4 4) = c.tag % 2 ^ 32 ∧
    le_value (bytes_at c.bytes 8 4) = c.data_len % 2 ^ 32 ∧
    15 + i < c.bytes.length ∧
    ∃ h : i < 16, c.bytes[15 + i]? = some (c.scsi_cmd_data ⟨i, h⟩ % 256) := by
  have hlen : c.bytes.length = 31 := by
    simp [msd_cbw_t.bytes, u32, u8, u8s_length]
  have hcmd : bytes_at c.bytes 15 16 = u8s c.scsi_cmd_data := by
    have := bytes_at_all (u8s c.scsi_cmd_data)
    rw [u8s_length] at this
    simpa [msd_cbw_t.bytes, u32, u8, bytes_at] using this
  have h0 : bytes_at c.bytes 0 4 = u32 c.signature := rfl
  have h4 : bytes_at c.bytes 4 4 = u32 c.tag := rfl
  have h8 : bytes_at c.bytes 8 4 = u32 c.data_len := rfl
  refine ⟨hlen, by decide, by decide, by decide, by decide, by decide, by decide,
    by decide, by decide, h0, h4, h8, rfl, rfl, rfl, hcmd, ?_, ?_, ?_, ?_, ?_⟩
  · rw [h0, le_value_u32]
  · rw [h4, le_value_u32]
  · rw [h8, le_value_u32]
  · omega
  · have hi16 : i < 16 := by omega
    refine ⟨hi16, ?_⟩
    have := u8s_getElem? c.scsi_cmd_data i hi16
    rw [Nat.add_comm]
    simpa [msd_cbw_t.bytes, u32, u8] using this

/-- C1 at the INQUIRY command block: command byte 4 of a six-byte command is
byte 19 of the 31. -/
theorem msd_cbw_t_layout_witness :
    1 ≤ 6 ∧ 6 ≤ 16 ∧ 4 < 6 ∧ inquiry_cbw.bytes.length = 31 ∧
    15 + 4 < inquiry_cbw.bytes.length :=
  have h := msd_cbw_t_layout inquiry_cbw 6 4 (by decide) (by decide) (by decide)
  ⟨by decide, by decide, by decide, h.1,
    h.2.2.2.2.2.2.2.2.2.2.2.2.2.2.2.2.2.2.2.1⟩

/-- C2: a `msd_csw_t` object occupies exactly 13 bytes, whatever its value:
the little-endian signature at bytes 0-3, tag at 4-7, data_residue at 8-11
and status at byte 12, as the packed declaration lays them out. -/
theorem msd_csw_t_layout (c : msd_csw_t) :
    c.bytes.length = 13 ∧ packed_sizeof msd_csw_t.members = 13 ∧
    packed_offsetof msd_csw_t.members "signature" = some 0 ∧
    packed_offsetof msd_csw_t.members "tag" = some 4 ∧
    packed_offsetof msd_csw_t.members "data_residue" = some 8 ∧
    packed_offsetof msd_csw_t.members "status" = some 12 ∧
    bytes_at c.bytes 0 4 = u32 c.signature ∧
    bytes_at c.bytes 4 4 = u32 c.tag ∧
    bytes_at c.bytes 8 4 = u32 c.data_residue ∧
    bytes_at c.bytes 12 1 = u8 c.status ∧
    le_value (bytes_at c.bytes 0 4) = c.signature % 2 ^ 32 ∧
    le_value (bytes_at c.bytes 4 4) = c.tag % 2 ^ 32 ∧
    le_value (bytes_at c.bytes 8 4) = c.data_residue % 2 ^ 32 ∧
    c.bytes[12]? = some (c.status % 256) := by
  have h0 : bytes_at c.bytes 0 4 = u32 c.signature := rfl
  have h4 : bytes_at c.bytes 4 4 = u32 c.tag := rfl
  have h8 : bytes_at c.bytes 8 4 = u32 c.data_residue := rfl
  refine ⟨rfl, by decide, by decide, by decide, by decide, by decide, h0, h4, h8,
    rfl, ?_, ?_, ?_, rfl⟩
  · rw [h0, le_value_u32]
  · rw [h4, le_value_u32]
  · rw [h8, le_value_u32]

/-- C4: a `msd_scsi_inquiry_response_t` object occupies exactly 36 bytes,
whatever its value: the eight single-byte members peripheral, removable,
version, response_data_format, additional_length, sccstp, bqueetc and cmdque
at bytes 0-7, the 8-byte vendor id at 8-15, the 16-byte product id at 16-31
and the 4-byte product revision at 32-35. -/
theorem msd_scsi_inquiry_response_t_layout (r : msd_scsi_inquiry_response_t) :
    r.bytes.length = 36 ∧
    packed_sizeof msd_scsi_inquiry_response_t.members = 36 ∧
    packed_offsetof msd_scsi_inquiry_response_t.members "peripheral" = some 0 ∧
    packed_offsetof msd_scsi_inquiry_response_t.members "removable" = some 1 ∧
    packed_offsetof msd_scsi_inquiry_response_t.members "version" = some 2 ∧
    packed_offsetof msd_scsi_inquiry_response_t.members "response_data_format"
      = some 3 ∧
    packed_offsetof msd_scsi_inquiry_response_t.members "additional_length"
      = some 4 ∧
    packed_offsetof msd_scsi_inquiry_response_t.members "sccstp" = some 5 ∧
    packed_offsetof msd_scsi_inquiry_response_t.members "bqueetc" = some 6 ∧
    packed_offsetof msd_scsi_inquiry_response_t.members "cmdque" = some 7 ∧
    packed_offsetof msd_scsi_inquiry_response_t.members "vendor_id" = some 8 ∧
    packed_offsetof msd_scsi_inquiry_response_t.members "product_id" = some 16 ∧
    packed_offsetof msd_scsi_inquiry_response_t.members "product_rev" = some 32 ∧
    bytes_at r.bytes 0 8 =
      [r.peripheral % 256, r.removable % 256, r.version % 256,
       r.response_data_format % 256, r.additional_length % 256,
       r.sccstp % 256, r.bqueetc % 256, r.cmdque % 256] ∧
    bytes_at r.bytes 8 8 = u8s r.vendor_id ∧
    bytes_at r.bytes 16 16 = u8s r.product_id ∧
    bytes_at r.bytes 32 4 = u8s r.product_rev := by
  have hsplit : r.bytes =
      [r.peripheral % 256, r.removable % 256, r.version % 256,
       r.response_data_format % 256, r.additional_length % 256,
       r.sccstp % 256, r.bqueetc % 256, r.cmdque % 256]
      ++ (u8s r.vendor_id ++ (u8s r.product_id ++ u8s r.product_rev)) := by
    simp [msd_scsi_inquiry_response_t.bytes, u8]
  have hv := u8s_length r.vendor_id
  have hp := u8s_length r.product_id
  have hr := u8s_length r.product_rev
  refine ⟨?_, by decide, by decide, by decide, by decide, by decide, by decide,
    by decide, by decide, by decide, by decide, by decide, by decide, rfl,
    ?_, ?_, ?_⟩
  · simp [hsplit, hv, hp, hr]
  · rw [hsplit]
    have h1 := bytes_at_append_right
      [r.peripheral % 256, r.removable % 256, r.version % 256,
       r.response_data_format % 256, r.additional_length % 256,
       r.sccstp % 256, r.bqueetc % 256, r.cmdque % 256]
      (u8s r.vendor_id ++ (u8s r.product_id ++ u8s r.product_rev)) 0 8
    have h2 := bytes_at_append_left (u8s r.vendor_id)
      (u8s r.product_id ++ u8s r.product_rev)
    rw [hv] at h2
    rw [← h2, ← h1]
    rfl
  · rw [hsplit, ← List.append_assoc]
    have h1 := bytes_at_append_right
      ([r.peripheral % 256, r.removable % 256, r.version % 256,
       r.response_data_format % 256, r.additional_length % 256,
       r.sccstp % 256, r.bqueetc % 256, r.cmdque % 256] ++ u8s r.vendor_id)
      (u8s r.product_id ++ u8s r.product_rev) 0 16
    have h2 := bytes_at_append_left (u8s r.product_id) (u8s r.product_rev)
    rw [hp] at h2
    rw [List.length_append, hv] at h1
    rw [← h2, ← h1]
    rfl
  · rw [hsplit, ← List.append_assoc, ← List.append_assoc]
    have h1 := bytes_at_append_right
      (([r.peripheral % 256, r.removable % 256, r.version % 256,
       r.response_data_format % 256, r.additional_length % 256,
       r.sccstp % 256, r.bqueetc % 256, r.cmdque % 256] ++ u8s r.vendor_id)
        ++ u8s r.product_id)
      (u8s r.product_rev) 0 4
    have h2 := bytes_at_all (u8s r.product_rev)
    rw [hr] at h2
    rw [List.length_append, List.length_append, hv, hp] at h1
    rw [← h2, ← h1]
    rfl

/-- C5: the sense data structure returned by REQUEST SENSE is exactly 18 bytes
long, whatever its value: its one member is an 18-byte array at offset 0. -/
theorem msd_scsi_sense_response_t_layout (s : msd_scsi_sense_response_t) :
    s.bytes.length = 18 ∧
    packed_sizeof msd_scsi_sense_response_t.members = 18 ∧
    packed_offsetof msd_scsi_sense_response_t.members "byte" = some 0 ∧
    ∀ i : Fin 18, s.bytes[i.val]? = some (s.byte i % 256) := by
  refine ⟨u8s_length s.byte, by decide, by decide, fun i => ?_⟩
  exact u8s_getElem? s.byte i.val i.isLt

/-! ## States and events -/

/-- C6: `msd_state_t` has exactly four pairwise distinct values, which
correspond one to one to the states Idle, ReadingCommandBlock, Ejected and
BotReset; `MSD_IDLE`, the state Idle, is the first enumerator, its value is 0,
and 0 (what a zero-initialised driver object holds) stands for it. -/
theorem msd_state_t_four_states :
    (∀ s : msd_state_t, s ∈ msd_state_t.enumerators) ∧
    msd_state_t.enumerators.Nodup ∧ msd_state_t.enumerators.length = 4 ∧
    msd_state_t.enumerators.map msd_state_t.value = [0, 1, 2, 3] ∧
    msd_state_t.enumerators.map msd_state_t.spec_state
      = [.Idle, .ReadingCommandBlock, .Ejected, .BotReset] ∧
    Function.Injective msd_state_t.value ∧
    (∀ n : Nat, (∃ s : msd_state_t, s.value = n) ↔ n < 4) ∧
    (∀ s : msd_state_t, s.spec_state.enumerator = s) ∧
    (∀ t : SpecState, t.enumerator.spec_state = t) ∧
    Function.Bijective msd_state_t.spec_state ∧
    msd_state_t.enumerators.head? = some .MSD_IDLE ∧
    msd_state_t.MSD_IDLE.spec_state = .Idle ∧
    msd_state_t.MSD_IDLE.value = 0 ∧
    msd_state_t.of_value 0 = some .MSD_IDLE ∧
    (∀ s : msd_state_t, msd_state_t.of_value s.value = some s) := by
  have hl : ∀ s : msd_state_t, s.spec_state.enumerator = s := by
    intro s; cases s <;> rfl
  have hr : ∀ t : SpecState, t.enumerator.spec_state = t := by
    intro t; cases t <;> rfl
  refine ⟨?_, by decide, rfl, rfl, rfl, ?_, ?_, hl, hr, ?_, rfl, rfl, rfl, rfl, ?_⟩
  · intro s; cases s <;> decide
  · intro s t h
    cases s <;> cases t <;> first | rfl | (exact absurd h (by decide))
  · intro n
    constructor
    · rintro ⟨s, rfl⟩
      cases s <;> decide
    · intro h
      match n, h with
      | 0, _ => exact ⟨.MSD_IDLE, rfl⟩
      | 1, _ => exact ⟨.MSD_READ_COMMAND_BLOCK, rfl⟩
      | 2, _ => exact ⟨.MSD_EJECTED, rfl⟩
      | 3, _ => exact ⟨.MSD_BOT_RESET, rfl⟩
  · exact ⟨Function.LeftInverse.injective hl, Function.RightInverse.surjective hr⟩
  · intro s; cases s <;> rfl

/-- C7, as the specification states it, fails: no `EVT_*` constant is named
for the eject request (nor for the media reinsertion), so not every
occurrence of the list has a constant. -/
theorem eject_requested_without_evt_constant :
    Occurrence.eject_requested.constants = [] ∧
    Occurrence.media_reinserted.constants = [] ∧
    ¬ ∀ o : Occurrence, ∃ e : Evt, e.occurrence = some o := by
  refine ⟨by decide, by decide, fun h => ?_⟩
  obtain ⟨e, he⟩ := h .eject_requested
  cases e <;> exact absurd he (by decide)

/-- C7, amended: USB reset, BOT reset requested and configuration complete
each have one `EVT_*` constant of their own (`EVT_USB_RESET`,
`EVT_BOT_RESET`, `EVT_USB_CONFIGURED`), with pairwise different values; none
of the thirteen constants is named for data-ready, eject requested or media
reinserted. -/
theorem evt_constants_of_occurrences :
    Occurrence.usb_reset.constants = [.EVT_USB_RESET] ∧
    Occurrence.bot_reset_requested.constants = [.EVT_BOT_RESET] ∧
    Occurrence.configuration_complete.constants = [.EVT_USB_CONFIGURED] ∧
    Evt.EVT_USB_RESET.mask = 1 ∧ Evt.EVT_BOT_RESET.mask = 2 ∧
    Evt.EVT_USB_CONFIGURED.mask = 16 ∧
    Occurrence.data_ready.constants = [] ∧
    Occurrence.eject_requested.constants = [] ∧
    Occurrence.media_reinserted.constants = [] ∧
    (∀ e : Evt, e.occurrence ≠ some .data_ready ∧
      e.occurrence ≠ some .eject_requested ∧
      e.occurrence ≠ some .media_reinserted) := by
  refine ⟨by decide, by decide, by decide, by decide, by decide, by decide,
    by decide, by decide, by decide, ?_⟩
  intro e
  cases e <;> decide

/-- C10: the thirteen `EVT_*` constants are the thirteen powers of two
`2 ^ 0 .. 2 ^ 12`, each constant its own; two different constants have
different values with bitwise AND 0; every constant, and the OR of any
collection of them (of all thirteen in particular), is below `2 ^ 13`; and an
event's bit is set in the OR of a collection exactly when the event belongs
to it. -/
theorem evt_masks_single_bits :
    Evt.all.length = 13 ∧ Evt.all.Nodup ∧ (∀ e : Evt, e ∈ Evt.all) ∧
    Evt.all.map Evt.shift = List.range 13 ∧
    Evt.all.map Evt.mask = (List.range 13).map (fun k => 2 ^ k) ∧
    (∀ e : Evt, e.shift < 13 ∧ e.mask = 2 ^ e.shift ∧ e.mask < 2 ^ 13) ∧
    (∀ e f : Evt, e ≠ f → e.shift ≠ f.shift ∧ e.mask ≠ f.mask ∧
      e.mask &&& f.mask = 0) ∧
    pending_flags Evt.all = 2 ^ 13 - 1 ∧
    (∀ es : List Evt, pending_flags es < 2 ^ 13) ∧
    (∀ (es : List Evt) (e : Evt),
      is_pending (pending_flags es) e = true ↔ e ∈ es) := by
  refine ⟨rfl, by decide, ?_, by decide, by decide, ?_, ?_, by decide, ?_, ?_⟩
  · intro e; cases e <;> decide
  · intro e; cases e <;> decide
  · intro e f h
    cases e <;> cases f <;> first | (exact absurd rfl h) | decide
  · intro es
    apply Nat.lt_pow_two_of_testBit
    intro i hi
    rw [testBit_pending_flags]
    simp only [List.any_eq_false, decide_eq_true_eq]
    intro e _ he
    have := e.shift_lt
    omega
  · intro es e
    unfold is_pending
    rw [bne_iff_ne, Evt.mask_eq_two_pow, and_two_pow_ne_zero,
      testBit_pending_flags, List.any_eq_true]
    constructor
    · rintro ⟨f, hf, hfe⟩
      have := Evt.shift_injective (of_decide_eq_true hfe)
      exact this ▸ hf
    · intro h
      exact ⟨e, h, by simp⟩

/-! ## Configuration strings -/

/-- C8: the configuration's short vendor id, short product id and short
product revision are arrays of 8, 16 and 4 bytes, the sizes of the INQUIRY
response's vendor_id, product_id and product_rev; so for every configuration
and every previous content of the inquiry structure, copying as many bytes as
the inquiry member holds puts the whole configured array there and nothing of
the previous content remains. -/
theorem config_strings_fill_inquiry (cfg : USBMassStorageConfig)
    (inq : msd_scsi_inquiry_response_t) :
    member_sizeof USBMassStorageConfig.members "short_vendor_id" = some 8 ∧
    member_sizeof USBMassStorageConfig.members "short_product_id" = some 16 ∧
    member_sizeof USBMassStorageConfig.members "short_product_version" = some 4 ∧
    member_sizeof msd_scsi_inquiry_response_t.members "vendor_id" = some 8 ∧
    member_sizeof msd_scsi_inquiry_response_t.members "product_id" = some 16 ∧
    member_sizeof msd_scsi_inquiry_response_t.members "product_rev" = some 4 ∧
    (u8s cfg.short_vendor_id).length = (u8s inq.vendor_id).length ∧
    (u8s cfg.short_product_id).length = (u8s inq.product_id).length ∧
    (u8s cfg.short_product_version).length = (u8s inq.product_rev).length ∧
    memcpy (u8s inq.vendor_id) (u8s cfg.short_vendor_id) 8
      = u8s cfg.short_vendor_id ∧
    memcpy (u8s inq.product_id) (u8s cfg.short_product_id) 16
      = u8s cfg.short_product_id ∧
    memcpy (u8s inq.product_rev) (u8s cfg.short_product_version) 4
      = u8s cfg.short_product_version := by
  have hv := memcpy_whole (u8s inq.vendor_id) (u8s cfg.short_vendor_id)
    (by simp [u8s_length])
  have hp := memcpy_whole (u8s inq.product_id) (u8s cfg.short_product_id)
    (by simp [u8s_length])
  have hr := memcpy_whole (u8s inq.product_rev) (u8s cfg.short_product_version)
    (by simp [u8s_length])
  rw [u8s_length] at hv hp hr
  refine ⟨by decide, by decide, by decide, by decide, by decide, by decide,
    ?_, ?_, ?_, hv, hp, hr⟩ <;> simp [u8s_length]

/-! ## Start-up -/

/-- C9 fails on `main`: with the card connected and the forced mount
successful, `init_msd_driver` is called with the FAT volume mounted; with a
failed `sdcConnect` it is called with no block device connected.  The
requirement of `msdStart` holds at the call exactly when `sdcConnect`
succeeded and `f_mount` failed. -/
theorem main_starts_msd_with_volume_mounted :
    (main_at_init_msd_driver .HAL_SUCCESS FR_OK).fs_mounted = true ∧
    (main_at_init_msd_driver .HAL_SUCCESS FR_OK).fs_ready = true ∧
    msdStart_requirement (main_at_init_msd_driver .HAL_SUCCESS FR_OK) = false ∧
    (main_at_init_msd_driver .HAL_FAILED 3).sdc_connected = false ∧
    msdStart_requirement (main_at_init_msd_driver .HAL_FAILED 3) = false ∧
    (∀ (r : hal_result) (err : Nat),
      msdStart_requirement (main_at_init_msd_driver r err) = true ↔
        r = .HAL_SUCCESS ∧ err ≠ FR_OK) := by
  refine ⟨by decide, by decide, by decide, by decide, by decide, ?_⟩
  intro r err
  cases r <;> by_cases h : err = FR_OK <;>
    simp [msdStart_requirement, main_at_init_msd_driver, h]

/-! ## Tag of the status wrapper -/

/-- C3: for every accepted CBW, whatever the driver's state, the emulator
and the presence of a reset, a CSW sent in that command cycle carries the
tag of the CBW: it is the `csw` of the driver state, whose tag equals the
tag of the driver state's `cbw`, and bytes 4-7 of the CSW on the wire are
bytes 4-7 of the envelope received; and unless the host resets the
transport during the cycle, a CSW is sent. -/
theorem csw_tag_eq_cbw_tag (p : BotParameters) (d : USBMassStorageDriver)
    (buf : List Nat) (emu : msd_cbw_t → EmulatorResult) (reset : Bool)
    (cbw : msd_cbw_t) (hdec : decode_cbw p buf = some cbw)
    (hacc : cbw_accepted p cbw = true) :
    (∀ csw : msd_csw_t, (command_cycle p d buf emu reset).sent = some csw →
      csw.tag = cbw.tag ∧
      (command_cycle p d buf emu reset).driver.csw = csw ∧
      (command_cycle p d buf emu reset).driver.cbw.tag = cbw.tag ∧
      (command_cycle p d buf emu reset).driver.csw.tag
        = (command_cycle p d buf emu reset).driver.cbw.tag ∧
      bytes_at csw.bytes 4 4 = (bytes_at buf 4 4).map fun b => b % 256) ∧
    (reset = false → ∃ csw : msd_csw_t,
      (command_cycle p d buf emu reset).sent = some csw) := by
  have hbuf : buf.length = 31 ∧ cbw.tag = le_value (bytes_at buf 4 4) := by
    unfold decode_cbw at hdec
    split at hdec
    · rename_i h
      simp only [Option.some.injEq] at hdec
      exact ⟨h.1, by rw [← hdec]⟩
    · simp at hdec
  have hwire : ∀ (st res : Nat), bytes_at (make_csw p cbw st res).bytes 4 4
      = (bytes_at buf 4 4).map fun b => b % 256 := by
    intro st res
    have h4 : bytes_at (make_csw p cbw st res).bytes 4 4
        = u32 (make_csw p cbw st res).tag := rfl
    rw [h4]
    show u32 cbw.tag = _
    rw [hbuf.2]
    exact u32_le_value _ (bytes_at_length buf 4 4 (by omega))
  have hreset : reset = true → (command_cycle p d buf emu reset).sent = none := by
    intro hr
    simp [command_cycle, hdec, hacc, hr]
  have hrun : reset = false → ∃ st res : Nat,
      (command_cycle p d buf emu reset).sent = some (make_csw p cbw st res) ∧
      (command_cycle p d buf emu reset).driver.csw = make_csw p cbw st res ∧
      (command_cycle p d buf emu reset).driver.cbw = cbw := by
    intro hr
    by_cases hej : d.state = .MSD_EJECTED
    · exact ⟨1, cbw.data_len, by simp [command_cycle, hdec, hacc, hr, hej]⟩
    · cases hemu : emu cbw with
      | success n =>
        exact ⟨0, cbw.data_len - n, by simp [command_cycle, hdec, hacc, hr, hej, hemu]⟩
      | command_failed n =>
        exact ⟨1, cbw.data_len - n, by simp [command_cycle, hdec, hacc, hr, hej, hemu]⟩
      | phase_error =>
        exact ⟨2, cbw.data_len, by simp [command_cycle, hdec, hacc, hr, hej, hemu]⟩
      | no_media =>
        exact ⟨1, cbw.data_len, by simp [command_cycle, hdec, hacc, hr, hej, hemu]⟩
  constructor
  · intro csw hsent
    rcases Bool.eq_false_or_eq_true reset with hr | hr
    · rw [hreset hr] at hsent
      exact absurd hsent (by simp)
    · obtain ⟨st, res, hs, hc, hb⟩ := hrun hr
      rw [hs] at hsent
      simp only [Option.some.injEq] at hsent
      subst hsent
      exact ⟨rfl, hc, by rw [hb], by rw [hc, hb]; rfl, hwire st res⟩
  · intro hr
    obtain ⟨st, res, hs, _, _⟩ := hrun hr
    exact ⟨_, hs⟩

/-- C3 at the INQUIRY command block with tag 1, answered in full by the
emulator: the CSW sent has tag 1. -/
theorem csw_tag_eq_cbw_tag_witness :
    decode_cbw usb_bot inquiry_cbw.bytes = some received_inquiry_cbw ∧
    cbw_accepted usb_bot received_inquiry_cbw = true ∧
    received_inquiry_cbw.tag = 1 ∧
    ∃ csw : msd_csw_t,
      (command_cycle usb_bot zeroed_driver inquiry_cbw.bytes
        (fun _ => .success 36) false).sent = some csw ∧
      csw.tag = received_inquiry_cbw.tag :=
  have h := csw_tag_eq_cbw_tag usb_bot zeroed_driver inquiry_cbw.bytes
    (fun _ => .success 36) false received_inquiry_cbw rfl (by decide)
  ⟨rfl, by decide, by decide,
    (h.2 rfl).elim fun csw hc => ⟨csw, hc, (h.1 csw hc).1⟩⟩

end UsbMsd
